import Mathlib

/-!
Verification development for the display-todos scanning and scope-tracking
engine (`src/scanner.ts` and the extension controller `extension.ts`).

The TypeScript sources are embedded shallowly:

* pure functions (`compileConfig`, `scanLines`, `scanText`, `scanDocument`,
  `matchGlob`, `matchesScope`) become Lean functions over `String` / `List`;
* the JavaScript `RegExp` built by the user-configurable pattern template is
  abstracted as an `exec` function `String → Option RegexMatch` supplied by a
  `RegexBuild` capability parameter, except for two places where the source
  pins down the regex completely: the never-matching regex of the empty
  configuration, and the glob-to-regex translation of `matchGlob`, whose
  generated regex fragment (literals, `[^/]`, `[^/]*`, `.*`, anchored both
  ends) is executed by a small backtracking matcher below;
* the stateful orchestrator `scanWorkspace` becomes a function from an input
  state to an output state, with the cooperative cancellation token modelled
  by the index of the cancellation checkpoint at which it starts reporting
  `isCancellationRequested = true`;
* the event handlers of the controller become transition functions on a
  `ControllerState` record (diagnostic store, tracked scope set,
  recently-saved set, pending per-file debounce timers).
-/

set_option autoImplicit false

/-- Diagnostic severities of the editor API (`vscode.DiagnosticSeverity`). -/
inductive DiagnosticSeverity where
  | error
  | warning
  | information
  | hint
deriving DecidableEq, Repr

/-- A keyword rule from the configuration (`KeywordConfig` in `scanner.ts`).
The severity is kept as a raw string because the configuration is read from
user settings at run time and may hold an unknown value, which the compiler
maps to the warning fallback. -/
structure KeywordConfig where
  keyword : String
  severity : String
deriving DecidableEq, Repr

/-- The scan configuration (`ScanConfig` in `scanner.ts`). -/
structure ScanConfig where
  keywords : List KeywordConfig
  include' : List String
  exclude : List String
  pattern : String
  caseSensitive : Bool
  displayName : String
deriving DecidableEq, Repr

/-- The result of a successful `RegExp.exec` call on a line: the start offset
of the match, the full matched text (`match[0]`), capture group 1 (the
keyword) and the optional capture group 2 (the trailing text). -/
structure RegexMatch where
  index : Nat
  matched : String
  group1 : String
  group2 : Option String
deriving DecidableEq, Repr

/-- Pre-compiled artefacts derived from a `ScanConfig`
(`CompiledConfig` in `scanner.ts`).  The compiled regex is represented by its
`exec` semantics on a single line. -/
structure CompiledConfig where
  pattern : String → Option RegexMatch
  severityLookup : List (String × DiagnosticSeverity)
  caseSensitive : Bool
  displayName : String

/-- The capability of building a `RegExp` from the escaped keyword
alternation substituted into the user pattern template
(`buildPattern` in `scanner.ts`, backed by the JavaScript regex engine). -/
def RegexBuild : Type :=
  List KeywordConfig → String → Bool → (String → Option RegexMatch)

/-- JavaScript `String.prototype.trim`: drop whitespace at both ends. -/
def jsTrim (s : String) : String :=
  String.mk
    (((s.data.dropWhile Char.isWhitespace).reverse.dropWhile
      Char.isWhitespace).reverse)

/-- JavaScript `String.prototype.toUpperCase` on the characters of the
string. -/
def jsToUpper (s : String) : String :=
  String.mk (s.data.map Char.toUpper)

/-- String prefix test on the character lists (the semantics of
`String.prototype.startsWith`). -/
def strIsPrefixOf (p s : String) : Bool :=
  p.data.isPrefixOf s.data

/-- String suffix test on the character lists (the semantics of
`String.prototype.endsWith`). -/
def strEndsWith (s t : String) : Bool :=
  t.data.reverse.isPrefixOf s.data.reverse

/-- `SEVERITY_MAP` from `scanner.ts`: the four known severity strings. -/
def SEVERITY_MAP : String → Option DiagnosticSeverity := fun s =>
  if s = "error" then some .error
  else if s = "warning" then some .warning
  else if s = "info" then some .information
  else if s = "hint" then some .hint
  else none

/-- JavaScript `Map.set` on an association list: replace the binding if the
key is present, otherwise append it. -/
def mapSet (m : List (String × DiagnosticSeverity)) (k : String)
    (v : DiagnosticSeverity) : List (String × DiagnosticSeverity) :=
  if m.any (fun e => e.1 == k) then
    m.map (fun e => if e.1 == k then (k, v) else e)
  else
    m ++ [(k, v)]

/-- `buildSeverityLookup` from `scanner.ts`: keys are stored uppercase when
case-insensitive, as-is when case-sensitive; unknown severity strings fall
back to warning. -/
def buildSeverityLookup (keywords : List KeywordConfig) (caseSensitive : Bool) :
    List (String × DiagnosticSeverity) :=
  keywords.foldl
    (fun m kw =>
      mapSet m (if caseSensitive then kw.keyword else jsToUpper kw.keyword)
        ((SEVERITY_MAP kw.severity).getD .warning))
    []

/-- `compileConfig` from `scanner.ts`.  With an empty keyword list the source
returns the regex literal `/(?!)/`; an empty negative lookahead fails at
every position, so its `exec` semantics is the constantly-`none` function. -/
def compileConfig (build : RegexBuild) (config : ScanConfig) : CompiledConfig :=
  if config.keywords.length = 0 then
    { pattern := fun _ => none
      severityLookup := []
      caseSensitive := config.caseSensitive
      displayName := config.displayName }
  else
    { pattern := build config.keywords config.pattern config.caseSensitive
      severityLookup := buildSeverityLookup config.keywords config.caseSensitive
      caseSensitive := config.caseSensitive
      displayName := config.displayName }

/-- A diagnostic (`vscode.Diagnostic` as produced by `scanLines`): a range
given by start/end positions, a message, a severity and a source label. -/
structure Diagnostic where
  startLine : Nat
  startCol : Nat
  endLine : Nat
  endCol : Nat
  message : String
  severity : DiagnosticSeverity
  source : String
deriving DecidableEq, Repr

/-- JavaScript `String.prototype.trimEnd`: drop trailing whitespace. -/
def trimEnd (s : String) : String :=
  String.mk (s.data.reverse.dropWhile Char.isWhitespace).reverse

/-- The body of the per-line loop of `scanLines` in `scanner.ts`
(lines 147-172): run the compiled regex once on the line; on a match,
normalize the keyword per the case rule, build the message from the trimmed
trailing text, and produce a single diagnostic whose range starts at the
match offset and ends after the trailing-whitespace-trimmed full match. -/
def scanLine (compiled : CompiledConfig) (lineIndex : Nat) (lineText : String) :
    Option Diagnostic :=
  match compiled.pattern lineText with
  | none => none
  | some m =>
    let keyword := if compiled.caseSensitive then m.group1 else jsToUpper m.group1
    let trailing := jsTrim (m.group2.getD "")
    let message := if trailing ≠ "" then keyword ++ ": " ++ trailing else keyword
    let severity :=
      ((compiled.severityLookup.find? (fun e => e.1 == keyword)).map
        (fun e => e.2)).getD .warning
    some
      { startLine := lineIndex
        startCol := m.index
        endLine := lineIndex
        endCol := m.index + (trimEnd m.matched).length
        message := message
        severity := severity
        source := compiled.displayName }

/-- `scanLines` from `scanner.ts`: iterate the line indices `[0, lineCount)`
in order, collecting the per-line diagnostics. -/
def scanLines (compiled : CompiledConfig) (lineAt : Nat → String)
    (lineCount : Nat) : List Diagnostic :=
  (List.range lineCount).filterMap (fun i => scanLine compiled i (lineAt i))

/-- Splitting on the regex `\r?\n` as JavaScript `String.prototype.split`
does: `\r\n` and `\n` separate lines, a lone `\r` is ordinary text. -/
def splitLinesAux : List Char → List Char → List String
  | [], acc => [String.mk acc.reverse]
  | '\r' :: '\n' :: rest, acc => String.mk acc.reverse :: splitLinesAux rest []
  | '\n' :: rest, acc => String.mk acc.reverse :: splitLinesAux rest []
  | c :: rest, acc => splitLinesAux rest (c :: acc)

/-- `text.split(/\r?\n/)` from `scanText` in `scanner.ts`. -/
def splitLines (text : String) : List String :=
  splitLinesAux text.data []

/-- `scanText` from `scanner.ts`: split the raw text on `\r?\n` and feed the
resulting line array to `scanLines`. -/
def scanText (text : String) (compiled : CompiledConfig) : List Diagnostic :=
  let lines := splitLines text
  scanLines compiled (fun i => lines.getD i "") lines.length

/-- An open text document as the scanner sees it: its URI scheme and key
(`uri.toString()`), its line contents, and the per-resource enable flag that
`isEnabledFor` reads from the configuration. -/
structure Doc where
  scheme : String
  key : String
  lines : List String
  enabled : Bool
deriving DecidableEq, Repr

/-- `scanDocument` from `scanner.ts` applied to a pre-compiled config:
nothing is reported when scanning is disabled for the document, otherwise
`scanLines` runs over the document's line provider. -/
def scanDocument (doc : Doc) (compiled : CompiledConfig) : List Diagnostic :=
  if !doc.enabled then []
  else scanLines compiled (fun i => doc.lines.getD i "") doc.lines.length

/-- The escape pass of `matchGlob` in `scanner.ts`: every character of the
class `[.+^${}()|[\]\\]` is prefixed with a backslash (the characters `*` and
`?` are deliberately left unescaped so the later passes can translate them). -/
def globEscapeChar (c : Char) : List Char :=
  if c == '.' || c == '+' || c == '^' || c == '$' || c == '\x7b' || c == '\x7d'
      || c == '(' || c == ')' || c == '|' || c == '[' || c == ']' || c == '\\' then
    ['\\', c]
  else
    [c]

/-- Single-pass global replacement of the two-character sequence `**` by the
placeholder character `\x00`, mirroring `.replace(/\*\*/g, "\0")`. -/
def replaceDoubleStar : List Char → List Char
  | '*' :: '*' :: rest => '\x00' :: replaceDoubleStar rest
  | c :: rest => c :: replaceDoubleStar rest
  | [] => []

/-- Single-pass global replacement of one character by a string, mirroring a
JavaScript `.replace(/c/g, rep)` (replaced text is not rescanned). -/
def replaceChar (c : Char) (rep : List Char) : List Char → List Char
  | [] => []
  | d :: rest =>
    if d == c then rep ++ replaceChar c rep rest
    else d :: replaceChar c rep rest

/-- The regex source built by `matchGlob` in `scanner.ts` from a glob
pattern: escape the regex metacharacters, then `**` to a placeholder, `*` to
`[^/]*`, the placeholder to `.*`, and `?` to `[^/]`. -/
def globToRegexSource (pattern : String) : List Char :=
  replaceChar '?' ['[', '^', '/', ']']
    (replaceChar '\x00' ['.', '*']
      (replaceChar '*' ['[', '^', '/', ']', '*']
        (replaceDoubleStar
          (pattern.data.foldr (fun c acc => globEscapeChar c ++ acc) []))))

/-- The constructs appearing in the regex source generated by
`globToRegexSource`: literal characters, the classes `[^/]` and `[^/]*`, and
`.*`. -/
inductive RegexTok where
  | lit (c : Char)
  | oneNonSep
  | starNonSep
  | dotStar
deriving DecidableEq, Repr

/-- Tokenize the generated regex source. -/
def parseRegexToks : List Char → List RegexTok
  | '[' :: '^' :: '/' :: ']' :: '*' :: rest => .starNonSep :: parseRegexToks rest
  | '[' :: '^' :: '/' :: ']' :: rest => .oneNonSep :: parseRegexToks rest
  | '.' :: '*' :: rest => .dotStar :: parseRegexToks rest
  | '\\' :: c :: rest => .lit c :: parseRegexToks rest
  | c :: rest => .lit c :: parseRegexToks rest
  | [] => []

/-- Backtracking matcher for the generated regex fragment, anchored at both
ends as `new RegExp("^" + source + "$").test(path)` is.  The fuel argument
bounds the recursion depth; every recursive call shrinks the token list or
the character list, so a fuel of `tokens + characters + 1` never runs out. -/
def reMatch : Nat → List RegexTok → List Char → Bool
  | 0, _, _ => false
  | _ + 1, [], cs => cs.isEmpty
  | fuel + 1, .lit c :: ts, cs =>
    match cs with
    | d :: ds => c == d && reMatch fuel ts ds
    | [] => false
  | fuel + 1, .oneNonSep :: ts, cs =>
    match cs with
    | d :: ds => d != '/' && reMatch fuel ts ds
    | [] => false
  | fuel + 1, .dotStar :: ts, cs =>
    reMatch fuel ts cs ||
      match cs with
      | _ :: ds => reMatch fuel (.dotStar :: ts) ds
      | [] => false
  | fuel + 1, .starNonSep :: ts, cs =>
    reMatch fuel ts cs ||
      match cs with
      | d :: ds => d != '/' && reMatch fuel (.starNonSep :: ts) ds
      | [] => false

/-- `matchGlob` from `scanner.ts` (lines 347-357): translate the glob to a
regex source and test the whole path against it. -/
def matchGlob (path pattern : String) : Bool :=
  let toks := parseRegexToks (globToRegexSource pattern)
  reMatch (toks.length + path.length + 1) toks path.data

/-- `matchesScope` from `scanner.ts` (lines 317-341).  The editor lookups are
abstracted: `hasWorkspaceFolder` is the result of
`getWorkspaceFolder(uri)` being defined, and `relativePath` is
`asRelativePath(uri, false)`.  The path must match at least one include
pattern and no exclude pattern. -/
def matchesScope (hasWorkspaceFolder : Bool) (relativePath : String)
    (config : ScanConfig) : Bool :=
  if !hasWorkspaceFolder then false
  else
    let included := config.include'.any (fun p => matchGlob relativePath (jsTrim p))
    if !included then false
    else !(config.exclude.any (fun p => matchGlob relativePath (jsTrim p)))

/-- The diagnostic store (`vscode.DiagnosticCollection`), keyed by
`uri.toString()`. -/
def Store : Type := List (String × List Diagnostic)

instance : DecidableEq Store := by
  unfold Store
  infer_instance

/-- `DiagnosticCollection.set`: replace the entry for a key. -/
def storeSet (st : Store) (key : String) (diags : List Diagnostic) : Store :=
  st.filter (fun e => e.1 ≠ key) ++ [(key, diags)]

/-- `DiagnosticCollection.delete`: drop the entry for a key. -/
def storeDelete (st : Store) (key : String) : Store :=
  st.filter (fun e => e.1 ≠ key)

/-- The diagnostics published for a key: the stored list, or none for an
absent entry (the spec treats an absent entry and an empty entry alike). -/
def storeGet (st : Store) (key : String) : List Diagnostic :=
  ((st.find? (fun e => e.1 == key)).map (fun e => e.2)).getD []

/-- The state touched by the workspace scan: the diagnostic store and the
tracked scope set `inScopeUris`. -/
structure ScanState where
  store : Store
  scopeSet : List String
deriving DecidableEq

/-- `BATCH_SIZE` from `scanner.ts`. -/
def BATCH_SIZE : Nat := 50

/-- The cancellation token, modelled by the checkpoint index from which
`isCancellationRequested` reports true (`none`: never cancelled).  The
checkpoints of `scanWorkspace` are numbered in execution order: 0 after file
enumeration, `1 + j` before batch `j`, and one final checkpoint after the
batch loop.  Once requested, cancellation stays requested. -/
def isCancelled (tok : Option Nat) (checkpoint : Nat) : Bool :=
  match tok with
  | none => false
  | some t => decide (t ≤ checkpoint)

/-- Split a list into chunks of `n` (the batching of `scanWorkspace`);
`k` counts the remaining capacity of the chunk being accumulated. -/
def chunkAux {α : Type} (n : Nat) : List α → List α → Nat → List (List α)
  | [], acc, _ => if acc.isEmpty then [] else [acc.reverse]
  | x :: rest, acc, k =>
    if k ≤ 1 then (x :: acc).reverse :: chunkAux n rest [] n
    else chunkAux n rest (x :: acc) (k - 1)

/-- `uris.slice(i, i + BATCH_SIZE)` batching of the candidate files. -/
def chunksOf {α : Type} (n : Nat) (l : List α) : List (List α) :=
  chunkAux n l [] n

/-- One candidate file of the batch task (lines 260-276 of `scanner.ts`):
the URI key is added to the scope set unconditionally; an already-open
document is scanned in memory, otherwise the disk content (`none` when the
read or decode fails, in which case the settled result is rejected and
skipped) is scanned as raw text; a non-empty diagnostic list is published. -/
def processFile (compiled : CompiledConfig) (openDocs : List Doc)
    (st : ScanState) (f : String × Option String) : ScanState :=
  let key := f.1
  let st1 : ScanState := { st with scopeSet := st.scopeSet.insert key }
  let diags? : Option (List Diagnostic) :=
    match openDocs.find? (fun d => d.key == key) with
    | some doc => some (scanDocument doc compiled)
    | none =>
      match f.2 with
      | some content => some (scanText content compiled)
      | none => none
  match diags? with
  | none => st1
  | some diags =>
    if diags.length > 0 then { st1 with store := storeSet st1.store key diags }
    else st1

/-- Process one batch of candidate files. -/
def processBatch (compiled : CompiledConfig) (openDocs : List Doc)
    (st : ScanState) (batch : List (String × Option String)) : ScanState :=
  batch.foldl (processFile compiled openDocs) st

/-- The batch loop of `scanWorkspace` with its per-batch cancellation check;
returns the final state, the next checkpoint index, and whether the loop was
abandoned because cancellation was requested. -/
def runBatches (tok : Option Nat) (compiled : CompiledConfig)
    (openDocs : List Doc) :
    List (List (String × Option String)) → Nat → ScanState →
      ScanState × Nat × Bool
  | [], i, st => (st, i, false)
  | b :: rest, i, st =>
    if isCancelled tok i then (st, i, true)
    else runBatches tok compiled openDocs rest (i + 1)
      (processBatch compiled openDocs st b)

/-- The final pass of `scanWorkspace` (lines 296-303): every open document
not covered by the glob enumeration is scanned and its diagnostics published
unconditionally. -/
def openDocsPass (compiled : CompiledConfig) (openDocs : List Doc)
    (st : ScanState) : ScanState :=
  openDocs.foldl
    (fun t doc =>
      if t.scopeSet.contains doc.key then t
      else { t with store := storeSet t.store doc.key (scanDocument doc compiled) })
    st

/-- `scanWorkspace` from `scanner.ts` (lines 221-304).  The store and scope
set are cleared first; a disabled global enable flag stops there; the matcher
is compiled once; the candidate files (already enumerated, each with its
optional disk content) are processed in batches of `BATCH_SIZE` with
cancellation checks after enumeration, before every batch and after the
loop; finally the uncovered open documents are scanned.  The result does not
depend on the initial state because of the clear-first design. -/
def scanWorkspace (build : RegexBuild) (globalEnable : Bool)
    (config : ScanConfig) (files : List (String × Option String))
    (openDocs : List Doc) (tok : Option Nat) (initial : ScanState) : ScanState :=
  let _ := initial
  let cleared : ScanState := { store := [], scopeSet := [] }
  if !globalEnable then cleared
  else
    let compiled := compileConfig build config
    if isCancelled tok 0 then cleared
    else
      let batches := chunksOf BATCH_SIZE files
      match runBatches tok compiled openDocs batches 1 cleared with
      | (st, i, cancelledFlag) =>
        if cancelledFlag then st
        else if isCancelled tok i then st
        else openDocsPass compiled openDocs st

/-- The state owned by the incremental update controller in `extension.ts`:
the diagnostic store, the tracked scope set `inScopeUris`, the
`recentlySavedUris` suppression set, and the keys of the pending per-file
debounce timers (`changeTimers`). -/
structure ControllerState where
  store : Store
  scopeSet : List String
  recentlySaved : List String
  changeTimers : List String
deriving DecidableEq

/-- The save-suppression window in milliseconds: the delay of the
`setTimeout` that removes a key from `recentlySavedUris` in the
`onDidSaveTextDocument` handler. -/
def saveSuppressionMs : Nat := 1000

/-- The per-file debounce delay (`CHANGE_DEBOUNCE_MS` in `extension.ts`). -/
def CHANGE_DEBOUNCE_MS : Nat := 300

/-- The full-rescan debounce delay (`RESCAN_DEBOUNCE_MS` in `extension.ts`). -/
def RESCAN_DEBOUNCE_MS : Nat := 400

/-- `debouncedDocumentRescan` from `extension.ts`: clearing and restarting
the file's timer leaves exactly one pending timer keyed by the file. -/
def debouncedDocumentRescan (doc : Doc) (s : ControllerState) : ControllerState :=
  { s with changeTimers := s.changeTimers.insert doc.key }

/-- The `onDidSaveTextDocument` handler of `extension.ts` (lines 62-86):
non-file schemes are ignored; the key is marked recently saved (with a
`saveSuppressionMs` expiry), the file's pending debounced rescan timer is
cancelled, and the document is scanned immediately and its diagnostics
published. -/
def onDidSaveHandler (build : RegexBuild) (config : ScanConfig) (doc : Doc)
    (s : ControllerState) : ControllerState :=
  if doc.scheme ≠ "file" then s
  else
    { store := storeSet s.store doc.key (scanDocument doc (compileConfig build config))
      scopeSet := s.scopeSet
      recentlySaved := s.recentlySaved.insert doc.key
      changeTimers := s.changeTimers.filter (fun k => k ≠ doc.key) }

/-- The `watcher.onDidChange` handler of `extension.ts` (lines 179-200):
a key inside the recently-saved window, or not tracked, is ignored; a file
that has become binary has its diagnostics cleared; an unreadable file is
skipped; otherwise the document is rescanned.  `isBinary` is the result of
the `isLikelyBinaryFile` capability and `readable` tells whether
`openTextDocument` succeeds. -/
def onDidChangeWatcherHandler (compiled : CompiledConfig)
    (isBinary readable : Bool) (doc : Doc) (s : ControllerState) :
    ControllerState :=
  if s.recentlySaved.contains doc.key || !(s.scopeSet.contains doc.key) then s
  else if isBinary then { s with store := storeDelete s.store doc.key }
  else if !readable then s
  else { s with store := storeSet s.store doc.key (scanDocument doc compiled) }

/-- The deleted path extended to a path-segment boundary, as the
`onDidDelete` handler computes it. -/
def dirPrefix (key : String) : String :=
  if strEndsWith key "/" then key else key ++ "/"

/-- The `watcher.onDidDelete` handler of `extension.ts` (lines 133-155):
a tracked file is removed directly; otherwise the path is treated as a
directory and every tracked file under it (segment-boundary string prefix)
is removed from the store and the scope set. -/
def onDidDeleteHandler (key : String) (s : ControllerState) : ControllerState :=
  if s.scopeSet.contains key then
    { s with store := storeDelete s.store key, scopeSet := s.scopeSet.erase key }
  else
    let pfx := dirPrefix key
    let doomed := s.scopeSet.filter (fun u => strIsPrefixOf pfx u)
    { s with
      store := doomed.foldl storeDelete s.store
      scopeSet := s.scopeSet.filter (fun u => !(strIsPrefixOf pfx u)) }

/-- The default TODO keyword rule used in concrete runs. -/
def todoKeyword : KeywordConfig := { keyword := "TODO", severity := "warning" }

/-- A concrete configuration with the repository's default pattern template. -/
def demoConfig : ScanConfig :=
  { keywords := [todoKeyword]
    include' := ["**/*"]
    exclude := []
    pattern := "\\b({keywords})\\b[:\\s]?(.*)"
    caseSensitive := true
    displayName := "Display TODOs" }

/-- `demoConfig` with the keyword rule list emptied. -/
def emptyRulesConfig : ScanConfig := { demoConfig with keywords := [] }

/-- A concrete `exec` semantics for the compiled default pattern, recording
its behaviour on the two line texts used by the concrete runs below. -/
def demoExec : String → Option RegexMatch := fun s =>
  if s == "// TODO: alpha" then
    some { index := 3, matched := "TODO: alpha", group1 := "TODO", group2 := some " alpha" }
  else if s == "// TODO: trim me   " then
    some { index := 3, matched := "TODO: trim me   ", group1 := "TODO", group2 := some " trim me   " }
  else none

/-- A concrete `RegexBuild` capability returning `demoExec`. -/
def demoBuild : RegexBuild := fun _ _ _ => demoExec

/-- One enumerated candidate file with readable disk content. -/
def demoFiles : List (String × Option String) :=
  [("file:///ws/a.ts", some "// TODO: alpha")]

/-- One open editor document outside the glob enumeration. -/
def demoOpenDocs : List Doc :=
  [{ scheme := "file", key := "file:///ws/b.ts", lines := ["// TODO: alpha"], enabled := true }]

/-- A pre-existing stale diagnostic used as the initial store content of the
cancellation runs. -/
def staleDiag : Diagnostic :=
  { startLine := 0, startCol := 0, endLine := 0, endCol := 1,
    message := "stale", severity := .warning, source := "" }

/-- A non-empty initial state that a workspace scan must clear. -/
def staleState : ScanState :=
  { store := [("file:///stale", [staleDiag])], scopeSet := ["file:///stale"] }

/-- A concrete compiled matcher used by the line-scanner witnesses. -/
def witCompiled : CompiledConfig :=
  { pattern := demoExec
    severityLookup := [("TODO", DiagnosticSeverity.warning)]
    caseSensitive := true
    displayName := "Display TODOs" }

/-- The line buffer of the line-scanner witnesses. -/
def witLines : List String := ["// TODO: trim me   "]

/-- The diagnostic that `scanLines witCompiled` produces on `witLines`. -/
def witDiag : Diagnostic :=
  { startLine := 0, startCol := 3, endLine := 0, endCol := 16,
    message := "TODO: trim me", severity := .warning, source := "Display TODOs" }

/-- A saved document for the controller runs. -/
def savedDoc : Doc :=
  { scheme := "file", key := "file:///ws/a.ts", lines := ["// TODO: alpha"], enabled := true }

/-- A controller state with a pending debounce timer for the saved file. -/
def ctrlBeforeSave : ControllerState :=
  { store := [], scopeSet := ["file:///ws/a.ts"],
    recentlySaved := [], changeTimers := ["file:///ws/a.ts"] }

/-- The controller state of the directory-delete example: three tracked
files, each with one published diagnostic. -/
def ctrlDirDelete : ControllerState :=
  { store := [("d/a.ts", [witDiag]), ("d/b.ts", [witDiag]), ("other.ts", [witDiag])]
    scopeSet := ["d/a.ts", "d/b.ts", "other.ts"]
    recentlySaved := []
    changeTimers := [] }

theorem scanLine_some_fields {compiled : CompiledConfig} {i : Nat} {t : String}
    {d : Diagnostic} (h : scanLine compiled i t = some d) :
    ∃ m, compiled.pattern t = some m ∧
      d.startLine = i ∧ d.endLine = i ∧ d.startCol = m.index ∧
      d.endCol = m.index + (trimEnd m.matched).length ∧
      d.message =
        (let kw := if compiled.caseSensitive then m.group1 else jsToUpper m.group1
         let tr := jsTrim (m.group2.getD "")
         if tr ≠ "" then kw ++ ": " ++ tr else kw) := by
  unfold scanLine at h
  cases hm : compiled.pattern t with
  | none => rw [hm] at h; exact absurd h (by simp)
  | some m =>
    rw [hm] at h
    simp only [Option.some.injEq] at h
    subst h
    exact ⟨m, rfl, rfl, rfl, rfl, rfl, rfl⟩

theorem scanLine_startLine {compiled : CompiledConfig} {i : Nat} {t : String}
    {d : Diagnostic} (h : scanLine compiled i t = some d) : d.startLine = i :=
  (scanLine_some_fields h).choose_spec.2.1

theorem mem_scanLines {compiled : CompiledConfig} {lineAt : Nat → String}
    {lineCount : Nat} {d : Diagnostic}
    (h : d ∈ scanLines compiled lineAt lineCount) :
    d.startLine < lineCount ∧
      scanLine compiled d.startLine (lineAt d.startLine) = some d := by
  unfold scanLines at h
  rw [List.mem_filterMap] at h
  obtain ⟨i, hi, hsc⟩ := h
  have hsl := scanLine_startLine hsc
  rw [hsl]
  exact ⟨List.mem_range.mp hi, hsc⟩

theorem scanLines_map_startLine_sublist (compiled : CompiledConfig)
    (lineAt : Nat → String) :
    ∀ l : List Nat,
      List.Sublist
        ((l.filterMap (fun i => scanLine compiled i (lineAt i))).map
          (fun d => d.startLine))
        l := by
  intro l
  induction l with
  | nil => simp
  | cons i rest ih =>
    cases hsc : scanLine compiled i (lineAt i) with
    | none =>
      simp only [List.filterMap_cons, hsc]
      exact ih.cons i
    | some d =>
      simp only [List.filterMap_cons, hsc, List.map_cons, scanLine_startLine hsc]
      exact ih.cons₂ i

theorem scanLines_startLine_pairwise (compiled : CompiledConfig)
    (lineAt : Nat → String) (lineCount : Nat) :
    ((scanLines compiled lineAt lineCount).map (fun d => d.startLine)).Pairwise
      (· < ·) :=
  (List.pairwise_lt_range lineCount).sublist
    (scanLines_map_startLine_sublist compiled lineAt (List.range lineCount))

theorem length_filter_beq_le_one {α : Type} (g : α → Nat) :
    ∀ l : List α, (l.map g).Nodup →
      ∀ i, (l.filter (fun d => g d == i)).length ≤ 1 := by
  intro l
  induction l with
  | nil => intro _ i; simp
  | cons a rest ih =>
    intro hnd i
    rw [List.map_cons, List.nodup_cons] at hnd
    obtain ⟨hna, hrest⟩ := hnd
    by_cases hai : g a = i
    · have hfr : rest.filter (fun d => g d == i) = [] := by
        apply List.filter_eq_nil_iff.mpr
        intro b hb
        simp only [beq_iff_eq]
        intro hgb
        exact hna (by rw [hai, ← hgb]; exact List.mem_map_of_mem g hb)
      simp [List.filter_cons, hai, hfr]
    · have heq : (a :: rest).filter (fun d => g d == i) =
          rest.filter (fun d => g d == i) := by
        simp [List.filter_cons, hai]
      rw [heq]
      exact ih hrest i

/-- C4 — for every configuration whose keyword rule list is empty, compiling
yields a matcher whose regex can never match, so scanning any line sequence
with `scanLines` and any text with `scanText` produces zero diagnostics. -/
theorem compileConfig_empty_rules_never_matches (build : RegexBuild)
    (config : ScanConfig) (h : config.keywords = []) :
    (∀ s, (compileConfig build config).pattern s = none) ∧
    (∀ (lineAt : Nat → String) (lineCount : Nat),
      scanLines (compileConfig build config) lineAt lineCount = []) ∧
    (∀ text, scanText text (compileConfig build config) = []) := by
  have hc : (compileConfig build config).pattern = fun _ => none := by
    unfold compileConfig
    rw [h]
    simp
  have hline : ∀ (i : Nat) (t : String),
      scanLine (compileConfig build config) i t = none := by
    intro i t
    unfold scanLine
    rw [hc]
  have hlines : ∀ (lineAt : Nat → String) (lineCount : Nat),
      scanLines (compileConfig build config) lineAt lineCount = [] := by
    intro lineAt lineCount
    unfold scanLines
    exact List.filterMap_eq_nil_iff.mpr (fun i _ => hline i (lineAt i))
  refine ⟨fun s => by rw [hc], hlines, fun text => hlines _ _⟩

/-- Witness for C4 at the concrete empty-rule configuration. -/
theorem compileConfig_empty_rules_never_matches_witness :
    emptyRulesConfig.keywords = [] ∧
    scanLines (compileConfig demoBuild emptyRulesConfig)
      (fun i => witLines.getD i "") 1 = [] ∧
    scanText "// TODO: alpha" (compileConfig demoBuild emptyRulesConfig) = [] := by
  have h := compileConfig_empty_rules_never_matches demoBuild emptyRulesConfig rfl
  exact ⟨rfl, h.2.1 _ 1, h.2.2 _⟩

/-- C5 — for every compiled matcher and line provider, `scanLines` produces
at most one diagnostic per line (the regex is run once per line, so only the
first match counts), and every diagnostic's message is the normalized
keyword followed by `": "` and the trimmed trailing capture when that trim
is non-empty, and the bare keyword otherwise. -/
theorem scanLines_one_diagnostic_per_line (compiled : CompiledConfig)
    (lineAt : Nat → String) (lineCount : Nat) :
    (∀ i, ((scanLines compiled lineAt lineCount).filter
      (fun d => d.startLine == i)).length ≤ 1) ∧
    (∀ d, d ∈ scanLines compiled lineAt lineCount →
      ∃ m, compiled.pattern (lineAt d.startLine) = some m ∧
        d.message =
          (let kw := if compiled.caseSensitive then m.group1 else jsToUpper m.group1
           let tr := jsTrim (m.group2.getD "")
           if tr ≠ "" then kw ++ ": " ++ tr else kw)) := by
  constructor
  · have hnd : ((scanLines compiled lineAt lineCount).map
        (fun d => d.startLine)).Nodup :=
      (scanLines_startLine_pairwise compiled lineAt lineCount).imp
        (fun hlt => Nat.ne_of_lt hlt)
    exact length_filter_beq_le_one _ _ hnd
  · intro d hd
    obtain ⟨-, hsc⟩ := mem_scanLines hd
    obtain ⟨m, hm, -, -, -, -, hmsg⟩ := scanLine_some_fields hsc
    exact ⟨m, hm, hmsg⟩

/-- Witness for C5 at a concrete matcher and line buffer. -/
theorem scanLines_one_diagnostic_per_line_witness :
    (((scanLines witCompiled (fun i => witLines.getD i "") 1).filter
      (fun d => d.startLine == 0)).length ≤ 1) ∧
    (∃ m, witCompiled.pattern (witLines.getD witDiag.startLine "") = some m ∧
      witDiag.message =
        (let kw := if witCompiled.caseSensitive then m.group1 else jsToUpper m.group1
         let tr := jsTrim (m.group2.getD "")
         if tr ≠ "" then kw ++ ": " ++ tr else kw)) := by
  have h := scanLines_one_diagnostic_per_line witCompiled
    (fun i => witLines.getD i "") 1
  exact ⟨h.1 0, h.2 witDiag (by decide)⟩

/-- C6 — every diagnostic produced by the line scanner starts at the match's
start offset and ends at the match start plus the length of the full match
with trailing whitespace trimmed. -/
theorem scanLines_range_excludes_trailing_whitespace (compiled : CompiledConfig)
    (lineAt : Nat → String) (lineCount : Nat) :
    ∀ d, d ∈ scanLines compiled lineAt lineCount →
      ∃ m, compiled.pattern (lineAt d.startLine) = some m ∧
        d.startCol = m.index ∧
        d.endCol = m.index + (trimEnd m.matched).length := by
  intro d hd
  obtain ⟨-, hsc⟩ := mem_scanLines hd
  obtain ⟨m, hm, -, -, hstart, hend, -⟩ := scanLine_some_fields hsc
  exact ⟨m, hm, hstart, hend⟩

/-- Witness for C6 at a concrete matcher and line buffer whose match carries
trailing spaces. -/
theorem scanLines_range_excludes_trailing_whitespace_witness :
    ∃ m, witCompiled.pattern (witLines.getD witDiag.startLine "") = some m ∧
      witDiag.startCol = m.index ∧
      witDiag.endCol = m.index + (trimEnd m.matched).length :=
  scanLines_range_excludes_trailing_whitespace witCompiled
    (fun i => witLines.getD i "") 1 witDiag (by decide)

/-- C7 — scanning raw text split on CRLF-or-LF (`scanText`) and scanning an
equivalent line-addressable buffer of the same content through `scanLines`
produce identical diagnostic sequences. -/
theorem scanLines_buffer_eq_scanText (compiled : CompiledConfig) (text : String)
    (lineAt : Nat → String) (lineCount : Nat)
    (hcount : lineCount = (splitLines text).length)
    (hline : ∀ i, i < lineCount → lineAt i = (splitLines text).getD i "") :
    scanLines compiled lineAt lineCount = scanText text compiled := by
  unfold scanText
  subst hcount
  unfold scanLines
  apply List.filterMap_congr
  intro i hi
  rw [hline i (List.mem_range.mp hi)]

/-- Witness for C7: a two-line text with a CRLF separator scanned both ways. -/
theorem scanLines_buffer_eq_scanText_witness :
    scanLines witCompiled (fun i => ["// TODO: trim me   ", "plain"].getD i "") 2 =
      scanText "// TODO: trim me   \r\nplain" witCompiled := by
  apply scanLines_buffer_eq_scanText
  · decide
  · decide

/-- C10 — the diagnostic sequence of the line scanner is strictly increasing
in line number, and every diagnostic's range lies on a single line with
start column at most end column. -/
theorem scanLines_sorted_and_wellformed (compiled : CompiledConfig)
    (lineAt : Nat → String) (lineCount : Nat) :
    ((scanLines compiled lineAt lineCount).map (fun d => d.startLine)).Pairwise
      (· < ·) ∧
    ∀ d, d ∈ scanLines compiled lineAt lineCount →
      d.startLine = d.endLine ∧ d.startCol ≤ d.endCol := by
  refine ⟨scanLines_startLine_pairwise compiled lineAt lineCount, ?_⟩
  intro d hd
  obtain ⟨-, hsc⟩ := mem_scanLines hd
  obtain ⟨m, -, hsl, hel, hstart, hend, -⟩ := scanLine_some_fields hsc
  constructor
  · rw [hsl, hel]
  · rw [hstart, hend]
    exact Nat.le_add_right _ _

/-- Witness for C10 at a concrete matcher and line buffer. -/
theorem scanLines_sorted_and_wellformed_witness :
    (((scanLines witCompiled (fun i => witLines.getD i "") 1).map
      (fun d => d.startLine)).Pairwise (· < ·)) ∧
    (witDiag.startLine = witDiag.endLine ∧ witDiag.startCol ≤ witDiag.endCol) := by
  have h := scanLines_sorted_and_wellformed witCompiled
    (fun i => witLines.getD i "") 1
  exact ⟨h.1, h.2 witDiag (by decide)⟩

theorem find?_filter_of_imp {α : Type} (p q : α → Bool)
    (h : ∀ e, p e = true → q e = true) :
    ∀ l : List α, (l.filter q).find? p = l.find? p := by
  intro l
  induction l with
  | nil => simp
  | cons e rest ih =>
    cases hq : q e with
    | true =>
      rw [List.filter_cons_of_pos hq]
      cases hp : p e with
      | true => rw [List.find?_cons_of_pos _ hp, List.find?_cons_of_pos _ hp]
      | false => rw [List.find?_cons_of_neg _ (by simp [hp]), List.find?_cons_of_neg _ (by simp [hp]), ih]
    | false =>
      rw [List.filter_cons_of_neg (by simp [hq])]
      have hp : p e = false := by
        cases hpe : p e with
        | true => rw [h e hpe] at hq; exact absurd hq (by simp)
        | false => rfl
      rw [List.find?_cons_of_neg _ (by simp [hp]), ih]

theorem storeGet_storeSet_self (st : Store) (key : String)
    (diags : List Diagnostic) : storeGet (storeSet st key diags) key = diags := by
  unfold storeGet storeSet
  rw [List.find?_append]
  have hnone : (st.filter (fun e => e.1 ≠ key)).find? (fun e => e.1 == key) = none := by
    rw [List.find?_eq_none]
    intro e he
    have := (List.mem_filter.mp he).2
    simp_all
  rw [hnone]
  simp

theorem storeGet_storeDelete (st : Store) (k u : String) :
    storeGet (storeDelete st k) u = if u = k then [] else storeGet st u := by
  unfold storeGet storeDelete
  by_cases h : u = k
  · subst h
    have hnone : (st.filter (fun e => e.1 ≠ u)).find? (fun e => e.1 == u) = none := by
      rw [List.find?_eq_none]
      intro e he
      have := (List.mem_filter.mp he).2
      simp_all
    rw [hnone]
    simp
  · rw [if_neg h]
    have himp : ∀ e : String × List Diagnostic,
        (e.1 == u) = true → (decide (e.1 ≠ k) : Bool) = true := by
      intro e hpe
      have he : e.1 = u := by simpa using hpe
      simp [he, h]
    rw [find?_filter_of_imp _ _ himp st]

theorem storeGet_foldl_storeDelete :
    ∀ (l : List String) (st : Store) (u : String),
      storeGet (l.foldl storeDelete st) u =
        if u ∈ l then [] else storeGet st u := by
  intro l
  induction l with
  | nil => intro st u; simp
  | cons k rest ih =>
    intro st u
    rw [List.foldl_cons, ih]
    by_cases hu : u ∈ rest
    · simp [hu]
    · rw [if_neg hu, storeGet_storeDelete]
      by_cases huk : u = k
      · simp [huk]
      · simp [huk, hu]

/-- C1 (amended) — a workspace scan whose cancellation is observed at the
post-enumeration checkpoint or at the first pre-batch checkpoint (checkpoint
index at most 1, i.e. before any file batch has been processed) leaves the
diagnostic store and the tracked scope set in their just-cleared state,
regardless of the initial state. -/
theorem scanWorkspace_cancel_before_batches_is_clean (build : RegexBuild)
    (globalEnable : Bool) (config : ScanConfig)
    (files : List (String × Option String)) (openDocs : List Doc)
    (t : Nat) (initial : ScanState) (h : t ≤ 1) :
    scanWorkspace build globalEnable config files openDocs (some t) initial =
      { store := [], scopeSet := [] } := by
  unfold scanWorkspace
  cases globalEnable with
  | false => simp
  | true =>
    simp only [Bool.not_true, Bool.false_eq_true, if_false, if_true]
    rcases Nat.le_one_iff_eq_zero_or_eq_one.mp h with rfl | rfl
    · simp [isCancelled]
    · have h0 : isCancelled (some 1) 0 = false := by simp [isCancelled]
      have h1 : isCancelled (some 1) 1 = true := by simp [isCancelled]
      rw [h0]
      cases hb : chunksOf BATCH_SIZE files with
      | nil => simp [runBatches, h1]
      | cons b rest => simp [runBatches, h1]

/-- Witness for the amended C1: a cancellation observed at the first
pre-batch checkpoint wipes a previously non-empty store and scope set. -/
theorem scanWorkspace_cancel_before_batches_is_clean_witness :
    1 ≤ 1 ∧
    scanWorkspace demoBuild true demoConfig demoFiles demoOpenDocs (some 1)
        staleState = { store := [], scopeSet := [] } :=
  ⟨Nat.le_refl 1,
    scanWorkspace_cancel_before_batches_is_clean demoBuild true demoConfig
      demoFiles demoOpenDocs 1 staleState (Nat.le_refl 1)⟩

/-- Counterexample to C1 as stated: a cancellation that fires after the
first batch has been processed (observed at the post-loop checkpoint, index
2) returns early — the run differs from an uncancelled run, which would
also scan the open editor — yet the store is not in its just-cleared state:
the diagnostics of the already-processed batch remain published. -/
theorem scanWorkspace_late_cancel_not_clean :
    scanWorkspace demoBuild true demoConfig demoFiles demoOpenDocs (some 2)
        staleState ≠ { store := [], scopeSet := [] } ∧
    scanWorkspace demoBuild true demoConfig demoFiles demoOpenDocs (some 2)
        staleState ≠
      scanWorkspace demoBuild true demoConfig demoFiles demoOpenDocs none
        staleState := by
  constructor
  · decide
  · decide

/-- The configuration of the C2 run: empty include set, the default
node_modules exclusion. -/
def emptyIncludeConfig : ScanConfig :=
  { keywords := [], include' := [], exclude := ["**/node_modules/**"],
    pattern := "", caseSensitive := true, displayName := "" }

/-- C2 — evaluation of the scope decision at the claim's input: with an
empty include set, `matchesScope` rejects `src/a.ts` (the `some` over an
empty include list is false, so nothing is in scope), contrary to the
claimed default-permissive policy. -/
theorem matchesScope_empty_include_rejects :
    matchesScope true "src/a.ts" emptyIncludeConfig = false := by
  decide

/-- C3 — evaluation of the glob matcher at the claim's example: the
translation of `**` keeps the following `/` mandatory, so
`**/node_modules/**` fails to match a path whose first segment is
`node_modules`, though it does match once a parent segment precedes it. -/
theorem matchGlob_rooted_node_modules_rejected :
    matchGlob "node_modules/pkg/index.ts" "**/node_modules/**" = false ∧
    matchGlob "a/node_modules/pkg/index.ts" "**/node_modules/**" = true := by
  constructor
  · decide
  · decide

/-- C8 — after a save of a file-scheme document: the file's pending
debounced rescan timer is cancelled, the document's fresh scan result is
published immediately, the file is marked recently saved, the suppression
window constant is 1000 ms, and any filesystem-watcher change event for the
same key arriving while the key is inside the recently-saved set leaves the
controller state completely unchanged. -/
theorem onDidSave_scans_and_suppresses_watcher (build : RegexBuild)
    (config : ScanConfig) (doc : Doc) (s : ControllerState)
    (h : doc.scheme = "file") :
    doc.key ∉ (onDidSaveHandler build config doc s).changeTimers ∧
    storeGet (onDidSaveHandler build config doc s).store doc.key =
      scanDocument doc (compileConfig build config) ∧
    doc.key ∈ (onDidSaveHandler build config doc s).recentlySaved ∧
    saveSuppressionMs = 1000 ∧
    (∀ (compiled : CompiledConfig) (isBinary readable : Bool) (d : Doc)
        (t : ControllerState), d.key = doc.key →
      doc.key ∈ t.recentlySaved →
      onDidChangeWatcherHandler compiled isBinary readable d t = t) := by
  have hs : onDidSaveHandler build config doc s =
      { store := storeSet s.store doc.key
          (scanDocument doc (compileConfig build config))
        scopeSet := s.scopeSet
        recentlySaved := s.recentlySaved.insert doc.key
        changeTimers := s.changeTimers.filter (fun k => k ≠ doc.key) } := by
    unfold onDidSaveHandler
    rw [if_neg (by simp [h])]
  refine ⟨?_, ?_, ?_, rfl, ?_⟩
  · rw [hs]
    intro hmem
    have := (List.mem_filter.mp hmem).2
    simp at this
  · rw [hs]
    exact storeGet_storeSet_self _ _ _
  · rw [hs]
    exact List.mem_insert_self _ _
  · intro compiled isBinary readable d t hd ht
    unfold onDidChangeWatcherHandler
    rw [hd]
    have hc : t.recentlySaved.contains doc.key = true := by
      simpa using ht
    rw [hc]
    simp

/-- Witness for C8: the concrete save run cancels the pending timer, marks
the key saved, and a subsequent watcher change event is a no-op. -/
theorem onDidSave_scans_and_suppresses_watcher_witness :
    "file:///ws/a.ts" ∉
      (onDidSaveHandler demoBuild demoConfig savedDoc ctrlBeforeSave).changeTimers ∧
    "file:///ws/a.ts" ∈
      (onDidSaveHandler demoBuild demoConfig savedDoc ctrlBeforeSave).recentlySaved ∧
    onDidChangeWatcherHandler witCompiled false true savedDoc
        (onDidSaveHandler demoBuild demoConfig savedDoc ctrlBeforeSave) =
      onDidSaveHandler demoBuild demoConfig savedDoc ctrlBeforeSave := by
  have h := onDidSave_scans_and_suppresses_watcher demoBuild demoConfig savedDoc
    ctrlBeforeSave rfl
  exact ⟨h.1, h.2.2.1, h.2.2.2.2 witCompiled false true savedDoc _ rfl h.2.2.1⟩

/-- C9 — a delete event whose path is not a tracked file (the directory
case): exactly the tracked files whose key extends the deleted path at a
path-segment boundary are removed from the scope set, their diagnostics are
cleared, and every other key's diagnostics are untouched. -/
theorem onDidDelete_directory_removes_descendants (key : String)
    (s : ControllerState) (h : key ∉ s.scopeSet) :
    (onDidDeleteHandler key s).scopeSet =
      s.scopeSet.filter (fun u => !(strIsPrefixOf (dirPrefix key) u)) ∧
    (∀ u, u ∈ s.scopeSet → strIsPrefixOf (dirPrefix key) u = true →
      storeGet (onDidDeleteHandler key s).store u = []) ∧
    (∀ u, strIsPrefixOf (dirPrefix key) u = false ∨ u ∉ s.scopeSet →
      storeGet (onDidDeleteHandler key s).store u = storeGet s.store u) := by
  have hc : s.scopeSet.contains key = false := by
    rw [Bool.eq_false_iff]
    intro hcon
    exact h (by simpa using hcon)
  have hd : onDidDeleteHandler key s =
      { s with
        store := (s.scopeSet.filter
          (fun u => strIsPrefixOf (dirPrefix key) u)).foldl storeDelete s.store
        scopeSet := s.scopeSet.filter
          (fun u => !(strIsPrefixOf (dirPrefix key) u)) } := by
    unfold onDidDeleteHandler
    rw [hc]
    simp
  refine ⟨by rw [hd], ?_, ?_⟩
  · intro u hu hpfx
    rw [hd]
    simp only
    rw [storeGet_foldl_storeDelete]
    rw [if_pos (List.mem_filter.mpr ⟨hu, hpfx⟩)]
  · intro u hu
    rw [hd]
    simp only
    rw [storeGet_foldl_storeDelete]
    rw [if_neg]
    intro hmem
    obtain ⟨hm, hp⟩ := List.mem_filter.mp hmem
    rcases hu with hfalse | hnotmem
    · rw [hfalse] at hp
      exact absurd hp (by simp)
    · exact hnotmem hm

/-- Witness for C9: deleting directory `d` with tracked files `d/a.ts`,
`d/b.ts`, `other.ts` leaves only `other.ts` tracked, clears the diagnostics
of the two descendants and keeps the diagnostics of the sibling. -/
theorem onDidDelete_directory_removes_descendants_witness :
    "d" ∉ ctrlDirDelete.scopeSet ∧
    (onDidDeleteHandler "d" ctrlDirDelete).scopeSet = ["other.ts"] ∧
    storeGet (onDidDeleteHandler "d" ctrlDirDelete).store "d/a.ts" = [] ∧
    storeGet (onDidDeleteHandler "d" ctrlDirDelete).store "d/b.ts" = [] ∧
    storeGet (onDidDeleteHandler "d" ctrlDirDelete).store "other.ts" =
      storeGet ctrlDirDelete.store "other.ts" := by
  have h := onDidDelete_directory_removes_descendants "d" ctrlDirDelete
    (by decide)
  refine ⟨by decide, ?_, ?_, ?_, ?_⟩
  · rw [h.1]; decide
  · exact h.2.1 "d/a.ts" (by decide) (by decide)
  · exact h.2.1 "d/b.ts" (by decide) (by decide)
  · exact h.2.2 "other.ts" (Or.inl (by decide))
